import Mathlib

/-!
Verification of the match-ingestion and betting/settlement pipeline of a
Discord League-of-Legends bot.  JavaScript numbers are modelled as `ℚ`,
millisecond timestamps as `ℤ`, account ids and match ids as `ℕ`, and the
document store as explicit state (lists and balance functions) threaded
through the operations.  `Math.round` rounds half toward positive infinity,
which is exactly Mathlib's `round`; `Math.floor` is `Int.floor`.
-/

namespace DiscordBot

/-! ### Calculator utilities (src/utils/calculator.js) -/

/-- JavaScript `Math.round(x * 10) / 10` — round to one decimal place. -/
def round1 (x : ℚ) : ℚ := ((round (x * 10) : ℤ) : ℚ) / 10

/-- `calculateKDA(kills, deaths, assists)`: `(kills+assists)/deaths`, with the
perfect-KDA convention `kills+assists` when `deaths = 0`. -/
def calculateKDA (kills deaths assists : ℚ) : ℚ :=
  if deaths = 0 then kills + assists else (kills + assists) / deaths

/-- A match participant as prepared by the ingestion pipeline: the stats read
by the scoring engine.  `discordId` is `some` exactly for linked accounts. -/
structure Player where
  discordId : Option ℕ
  teamId : ℕ
  kills : ℕ
  deaths : ℕ
  assists : ℕ
  totalDamageDealtToChampions : ℚ
  totalDamageTaken : ℚ
  win : Bool
deriving DecidableEq

/-- Aggregated team stats, as accumulated per `teamId` in
`findMVPAndFeeder` / `processMatch`. -/
structure TeamStats where
  totalDamage : ℚ
  totalDamageTaken : ℚ
deriving DecidableEq

/-- `calculateMVPScore(player, teamStats)` from src/utils/calculator.js. -/
def calculateMVPScore (p : Player) (teamStats : TeamStats) : ℚ :=
  let kda := calculateKDA p.kills p.deaths p.assists
  let damagePercent : ℚ :=
    if teamStats.totalDamage > 0 then p.totalDamageDealtToChampions / teamStats.totalDamage
    else 0
  let tankPercent : ℚ :=
    if teamStats.totalDamageTaken > 0 then p.totalDamageTaken / teamStats.totalDamageTaken
    else 0
  let score := kda * (damagePercent * 0.6 + tankPercent * 0.4)
  let score := if p.win then score * 1.2 else score
  let score := min (score * 10) 100
  round1 score

/-- The per-team aggregate built by the `participants.forEach` loop in
`findMVPAndFeeder`: totals of damage dealt to champions and damage taken over
the participants on the given team. -/
def teamStatsFor (participants : List Player) (teamId : ℕ) : TeamStats :=
  { totalDamage :=
      ((participants.filter fun p => p.teamId = teamId).map
        fun p => p.totalDamageDealtToChampions).sum
    totalDamageTaken :=
      ((participants.filter fun p => p.teamId = teamId).map
        fun p => p.totalDamageTaken).sum }

/-- The MVP score a participant receives inside `findMVPAndFeeder`:
`calculateMVPScore(p, teams[p.teamId])`. -/
def mvpScoreWithin (participants : List Player) (p : Player) : ℚ :=
  calculateMVPScore p (teamStatsFor participants p.teamId)

/-- Modelled from the spec: `mvpScore` as the spec describes it —
`kda * (damageShare*0.6 + tankShare*0.4)` times 1.2 exactly when the player
won, scaled by 10, capped at 100 and rounded to one decimal, where the shares
divide by the player's own team totals. -/
def specMVPScore (p : Player) (ts : TeamStats) : ℚ :=
  let damageShare := p.totalDamageDealtToChampions / ts.totalDamage
  let tankShare := p.totalDamageTaken / ts.totalDamageTaken
  let base := calculateKDA p.kills p.deaths p.assists *
    (damageShare * 0.6 + tankShare * 0.4) * (if p.win then 1.2 else 1)
  round1 (min (base * 10) 100)

/-- A participant of `playersWithScores` in `findMVPAndFeeder`: the player
together with the computed `kda` and `mvpScore` fields. -/
structure ScoredPlayer where
  player : Player
  kda : ℚ
  mvpScore : ℚ
deriving DecidableEq

/-- The `playersWithScores` list of `findMVPAndFeeder`: linked participants
(those with a `discordId`) with `kda` and `mvpScore` attached. -/
def playersWithScores (participants : List Player) : List ScoredPlayer :=
  (participants.filter fun p => p.discordId.isSome).map fun p =>
    { player := p
      kda := calculateKDA p.kills p.deaths p.assists
      mvpScore := mvpScoreWithin participants p }

/-- One step of the feeder `reduce` in `findMVPAndFeeder`: a player with at
least 10 deaths is prioritized over one with fewer, otherwise the lower KDA
wins, keeping the accumulator on ties. -/
def feederStep (worst p : ScoredPlayer) : ScoredPlayer :=
  if 10 ≤ p.player.deaths ∧ worst.player.deaths < 10 then p
  else if 10 ≤ worst.player.deaths ∧ p.player.deaths < 10 then worst
  else if p.kda < worst.kda then p else worst

/-- The feeder `reduce` of `findMVPAndFeeder` (JavaScript `reduce` with no
initial value: first element seeds the accumulator). -/
def findFeeder : List ScoredPlayer → Option ScoredPlayer
  | [] => none
  | x :: xs => some (xs.foldl feederStep x)

/-- The MVP `reduce` of `findMVPAndFeeder`: strictly higher `mvpScore`
replaces the accumulator. -/
def findMVP : List ScoredPlayer → Option ScoredPlayer
  | [] => none
  | x :: xs => some (xs.foldl (fun mx p => if p.mvpScore > mx.mvpScore then p else mx) x)

/-- Result object of `findMVPAndFeeder`. -/
structure MVPFeederResult where
  mvp : Option ℕ
  feeder : Option ℕ
deriving DecidableEq

/-- `findMVPAndFeeder(participants)` from src/utils/calculator.js, projected
to the stored `mvp`/`feeder` discord ids. -/
def findMVPAndFeeder (participants : List Player) : MVPFeederResult :=
  match findMVP (playersWithScores participants),
        findFeeder (playersWithScores participants) with
  | some mvp, some feeder => { mvp := mvp.player.discordId, feeder := feeder.player.discordId }
  | _, _ => { mvp := none, feeder := none }

/-- Modelled from the spec: the feeder priority order.  `p` strictly precedes
`q` when `p` has ≥10 deaths and `q` does not, or both are on the same side of
the 10-death threshold and `p` has the strictly lower KDA. -/
def feederPriorityLT (p q : ScoredPlayer) : Prop :=
  (10 ≤ p.player.deaths ∧ q.player.deaths < 10) ∨
  ((10 ≤ p.player.deaths ↔ 10 ≤ q.player.deaths) ∧ p.kda < q.kda)

instance : DecidableRel feederPriorityLT := by
  intro p q
  unfold feederPriorityLT
  infer_instance

/-! ### Betting odds and payouts (src/utils/calculator.js) -/

/-- Input statistics of `calculateBettingOdds`. -/
structure PlayerOddsStats where
  winRate : ℚ
  avgKDA : ℚ
  avgDeaths : ℚ
deriving DecidableEq

/-- The five odds returned by `calculateBettingOdds`, keyed in the source by
`win`, `loss`, `kda>3`, `deaths>7`, `time>30`. -/
structure BettingOdds where
  win : ℚ
  loss : ℚ
  kda3 : ℚ
  deaths7 : ℚ
  time30 : ℚ
deriving DecidableEq

/-- `calculateBettingOdds(stats)` from src/utils/calculator.js. -/
def calculateBettingOdds (stats : PlayerOddsStats) : BettingOdds :=
  let winRate := stats.winRate
  let avgKDA := stats.avgKDA
  let avgDeaths := stats.avgDeaths
  let winOdds : ℚ :=
    if winRate > 50 then 1.5 + (100 - winRate) / 50 else 2.0 + (50 - winRate) / 25
  let lossOdds : ℚ :=
    if winRate > 50 then 2.0 + (winRate - 50) / 25 else 1.5 + winRate / 50
  let kdaThreshold : ℚ := 3.0
  let kdaOdds : ℚ :=
    if avgKDA > kdaThreshold then 1.6 + (5.0 - avgKDA) / 2
    else 2.2 + (kdaThreshold - avgKDA) / 2
  let deathThreshold : ℚ := 7
  let deathOdds : ℚ :=
    if avgDeaths > deathThreshold then 1.8 + (avgDeaths - deathThreshold) / 3
    else 2.5 + (deathThreshold - avgDeaths) / 3
  let timeOdds : ℚ := 1.8
  let houseEdge : ℚ := 0.95
  { win := round1 (winOdds * houseEdge)
    loss := round1 (lossOdds * houseEdge)
    kda3 := round1 (kdaOdds * houseEdge)
    deaths7 := round1 (deathOdds * houseEdge)
    time30 := round1 (timeOdds * houseEdge) }

/-- Modelled from the spec: the unscaled win odds, `1.5 + (100-winRate)/50`
when the win rate exceeds 50 and `2.0 + (50-winRate)/25` otherwise. -/
def specWinOddsRaw (winRate : ℚ) : ℚ :=
  if winRate > 50 then 1.5 + (100 - winRate) / 50 else 2.0 + (50 - winRate) / 25

/-- Modelled from the spec: the unscaled loss odds — the inverse piecewise
scale, `2.0 + (winRate-50)/25` above 50 and `1.5 + winRate/50` otherwise. -/
def specLossOddsRaw (winRate : ℚ) : ℚ :=
  if winRate > 50 then 2.0 + (winRate - 50) / 25 else 1.5 + winRate / 50

/-- Modelled from the spec: the unscaled KDA odds, linear around the fixed
threshold 3.0. -/
def specKdaOddsRaw (avgKDA : ℚ) : ℚ :=
  if avgKDA > 3 then 1.6 + (5 - avgKDA) / 2 else 2.2 + (3 - avgKDA) / 2

/-- Modelled from the spec: the unscaled deaths odds, linear around the fixed
threshold 7. -/
def specDeathsOddsRaw (avgDeaths : ℚ) : ℚ :=
  if avgDeaths > 7 then 1.8 + (avgDeaths - 7) / 3 else 2.5 + (7 - avgDeaths) / 3

/-- Modelled from the spec: the unscaled duration odds, the constant 1.8. -/
def specTimeOddsRaw : ℚ := 1.8

/-- `calculatePayout(amount, odds) = Math.floor(amount * odds)`. -/
def calculatePayout (amount : ℕ) (odds : ℚ) : ℤ := ⌊(amount : ℚ) * odds⌋

/-- The five bet kinds of the `Bet` schema enum. -/
inductive BetKind where
  | win
  | loss
  | kda3
  | deaths7
  | time30
deriving DecidableEq

/-- The `matchStats` object built by `settleBets` for bet evaluation. -/
structure MatchStats where
  win : Bool
  kda : ℚ
  deaths : ℕ
  gameDuration : ℚ
deriving DecidableEq

/-- `evaluateBet(betType, matchStats)` from src/utils/calculator.js. -/
def evaluateBet (betType : BetKind) (m : MatchStats) : Bool :=
  match betType with
  | .win => m.win
  | .loss => !m.win
  | .kda3 => decide (m.kda > 3)
  | .deaths7 => decide (m.deaths > 7)
  | .time30 => decide (m.gameDuration > 30 * 60)

/-! ### Configuration (src/config/config.js, features.betting / features.postGame) -/

/-- `config.features.betting.initialCoins`. -/
def initialCoins : ℤ := 1000

/-- `config.features.betting.cancellationPenalty`. -/
def cancellationPenalty : ℤ := 50

/-- `config.features.betting.maxGameStartWindow` (minutes). -/
def maxGameStartWindow : ℚ := 40

/-- `config.features.betting.maxMatchWaitTime` (minutes). -/
def maxMatchWaitTime : ℤ := 90

/-! ### Persistent store records (src/services/database.js) -/

/-- The `BetWindow.status` enum. -/
inductive WindowStatus where
  | opened
  | closed
  | matched
  | cancelled
deriving DecidableEq

/-- The `Bet.result` enum. -/
inductive BetResult where
  | pending
  | won
  | lost
  | cancelled
deriving DecidableEq

/-- A `Bet` document.  Timestamps are milliseconds. -/
structure Bet where
  userId : ℕ
  targetUserId : ℕ
  matchId : Option ℕ
  betType : BetKind
  amount : ℕ
  odds : ℚ
  result : BetResult
  payout : ℤ
  openedAt : ℤ
deriving DecidableEq

/-- A `BetWindow` document. -/
structure BetWindow where
  userId : ℕ
  status : WindowStatus
  openedAt : ℤ
  closedAt : Option ℤ
  matchId : Option ℕ
  totalBets : ℕ
  totalAmount : ℕ
deriving DecidableEq

/-- A `User` document, restricted to the fields the claims touch. -/
structure UserAccount where
  discordId : ℕ
  riotPuuid : ℕ
  currency : ℤ
deriving DecidableEq

/-- The `currency` default of the User schema:
`config.features.betting.initialCoins`. -/
def userSchemaCurrencyDefault : ℤ := initialCoins

/-- The user document built by the link command's success path:
`currency: config.features.betting.initialCoins`. -/
def linkNewUser (discordId riotPuuid : ℕ) : UserAccount :=
  { discordId := discordId, riotPuuid := riotPuuid, currency := initialCoins }

/-! ### Betting feature (src/features/betting.js)

Account balances are modelled as a total function from discord id to
currency; the `User.findOne` + mutate + `save` pattern becomes a pointwise
update of that function. -/

/-- Pointwise balance update (the effect of mutating one user document's
`currency` and saving it). -/
def updateBal (bal : ℕ → ℤ) (id : ℕ) (v : ℤ) : ℕ → ℤ :=
  fun x => if x = id then v else bal x

/-- Sum of the balances of a set of account ids. -/
def totalBalance (ids : List ℕ) (bal : ℕ → ℤ) : ℤ := (ids.map bal).sum

/-- The `Bet.find` query used by both `checkAndCancelWindow` and
`settleBets`: the bet belongs to the window when its `openedAt` and
`targetUserId` equal the window's `openedAt` and `userId`. -/
def betOnWindow (w : BetWindow) (b : Bet) : Prop :=
  b.openedAt = w.openedAt ∧ b.targetUserId = w.userId

instance : DecidablePred fun p : BetWindow × Bet => betOnWindow p.1 p.2 := by
  intro p
  unfold betOnWindow
  infer_instance

instance (w : BetWindow) (b : Bet) : Decidable (betOnWindow w b) := by
  unfold betOnWindow
  infer_instance

/-- `placeBet`'s success path: the balance check and window lookup succeed,
the stake is debited immediately, the pending bet is created with the quoted
odds, and the window aggregates grow. -/
def placeBet (userId targetUserId : ℕ) (betType : BetKind) (amount : ℕ) (odds : ℚ)
    (w : BetWindow) (bal : ℕ → ℤ) : Option (Bet × BetWindow × (ℕ → ℤ)) :=
  if bal userId < amount then none
  else if w.status = .opened ∧ w.userId = targetUserId then
    some
      ({ userId := userId, targetUserId := targetUserId, matchId := none,
         betType := betType, amount := amount, odds := odds,
         result := .pending, payout := 0, openedAt := w.openedAt },
       { w with totalBets := w.totalBets + 1, totalAmount := w.totalAmount + amount },
       updateBal bal userId (bal userId - amount))
  else none

/-- The cumulative balance effect of the `user.currency -= amount` debit that
`placeBet` performs for each successfully placed bet of the list. -/
def debitStakes (bets : List Bet) (bal : ℕ → ℤ) : ℕ → ℤ :=
  bets.foldl (fun acc b => updateBal acc b.userId (acc b.userId - (b.amount : ℤ))) bal

/-- The refund loop of `checkAndCancelWindow`: each bet's staked amount is
credited back to its bettor. -/
def refundBets (pending : List Bet) (bal : ℕ → ℤ) : ℕ → ℤ :=
  pending.foldl (fun acc b => updateBal acc b.userId (acc b.userId + (b.amount : ℤ))) bal

/-- Total amount staked by one account across a list of bets. -/
def stakesOf (id : ℕ) (bets : List Bet) : ℤ :=
  ((bets.filter fun b => b.userId = id).map fun b => (b.amount : ℤ)).sum

/-- `checkAndCancelWindow(windowId)`: if the window is still `closed`, mark it
`cancelled`, refund every pending bet of the window, and penalize the window
opener by `cancellationPenalty`; otherwise do nothing. -/
def checkAndCancelWindow (w : BetWindow) (bets : List Bet) (bal : ℕ → ℤ) :
    BetWindow × List Bet × (ℕ → ℤ) :=
  if w.status = .closed then
    let w' := { w with status := .cancelled }
    let pending := bets.filter fun b => decide (betOnWindow w b ∧ b.result = .pending)
    let bal' := refundBets pending bal
    let bets' := bets.map fun b =>
      if betOnWindow w b ∧ b.result = .pending then { b with result := .cancelled } else b
    let bal'' := updateBal bal' w.userId (bal' w.userId - cancellationPenalty)
    (w', bets', bal'')
  else (w, bets, bal)

/-- The whole betting store: windows, bets and account balances. -/
structure BettingState where
  windows : List BetWindow
  bets : List Bet
  balances : ℕ → ℤ

/-- The `closedAt: le cutoffTime` part of the `cleanupExpiredWindows` query,
where the cutoff is `maxMatchWaitTime + 10` minutes before now (a document
whose `closedAt` is absent never matches the query). -/
def closedBeforeCutoff (now : ℤ) (w : BetWindow) : Bool :=
  match w.closedAt with
  | some t => decide (t ≤ now - (maxMatchWaitTime + 10) * 60000)
  | none => false

/-- `cleanupExpiredWindows()`: every window still `closed` whose `closedAt`
is at least `maxMatchWaitTime + 10` minutes old is marked `cancelled`.  The
function reads and writes only BetWindow documents. -/
def cleanupExpiredWindows (now : ℤ) (s : BettingState) : BettingState :=
  { s with
    windows := s.windows.map fun w =>
      if w.status = .closed ∧ closedBeforeCutoff now w then
        { w with status := .cancelled }
      else w }

/-- Settlement of one bet inside `settleBets`: a pending bet of the window is
marked `won` with payout `calculatePayout(amount, odds)` when
`evaluateBet` holds, else `lost` with payout 0; the match id and settlement
are recorded.  Other bets are untouched. -/
def settleOne (w : BetWindow) (stats : MatchStats) (matchId : ℕ) (b : Bet) : Bet :=
  if betOnWindow w b ∧ b.result = .pending then
    if evaluateBet b.betType stats then
      { b with result := .won, payout := calculatePayout b.amount b.odds,
               matchId := some matchId }
    else
      { b with result := .lost, payout := 0, matchId := some matchId }
  else b

/-- `settleBets(windowId, playerStats, matchId)`: settle every pending bet of
the window and credit each winner's payout. -/
def settleBets (w : BetWindow) (stats : MatchStats) (matchId : ℕ)
    (bets : List Bet) (bal : ℕ → ℤ) : List Bet × (ℕ → ℤ) :=
  (bets.map (settleOne w stats matchId),
   (bets.filter fun b =>
      decide (betOnWindow w b ∧ b.result = .pending) && evaluateBet b.betType stats).foldl
     (fun acc b => updateBal acc b.userId (acc b.userId + calculatePayout b.amount b.odds))
     bal)

/-! ### Settlement correlator (settleBetsForMatch, src/features/postGameAnalysis.js) -/

/-- The per-participant body of `settleBetsForMatch`, given the most recent
closed unresolved window found for the participant: compute
`timeSinceBetOpened = (gameStartTime - window.openedAt) / 60000` minutes and,
when `0 ≤ timeSinceBetOpened ≤ maxGameStartWindow`, bind the window to the
match (`matchId` set, status `matched`) and settle its bets; otherwise leave
everything unchanged. -/
def settleWindowForMatch (w : BetWindow) (matchId : ℕ) (gameStartMs : ℤ)
    (stats : MatchStats) (bets : List Bet) (bal : ℕ → ℤ) :
    BetWindow × List Bet × (ℕ → ℤ) :=
  let timeSinceBetOpened : ℚ := ((gameStartMs - w.openedAt : ℤ) : ℚ) / (1000 * 60)
  if 0 ≤ timeSinceBetOpened ∧ timeSinceBetOpened ≤ maxGameStartWindow then
    let w' := { w with matchId := some matchId, status := .matched }
    let settled := settleBets w' stats matchId bets bal
    (w', settled.1, settled.2)
  else (w, bets, bal)

/-! ### Ingestion pipeline: match claim state machine
(src/features/postGameAnalysis.js) -/

/-- A `Match` document as used by the claim step: the `processing` flag, the
claim timestamp, and the participants list (non-empty exactly for fully
processed Terminal records; participant ids stand in for the stored
sub-documents). -/
structure MatchRecord where
  processing : Bool
  claimedAt : Option ℤ
  participants : List ℕ
deriving DecidableEq

/-- What the pre-claim `Match.findOne` branch decides for an existing
document. -/
inductive ExistingDecision where
  | skipProcessed
  | skipClaimed
  | deleteAndReclaim
deriving DecidableEq

/-- The existing-document branch shared by `checkForNewMatches` and
`checkMatchesForUser`: a record with participants is skipped as fully
processed; a record with a `claimedAt` younger than 5 minutes is skipped as
owned by another instance; otherwise the record is deleted and the id is
reprocessed. -/
def handleExistingMatch (m : MatchRecord) (now : ℤ) : ExistingDecision :=
  if m.participants ≠ [] then .skipProcessed
  else
    match m.claimedAt with
    | some t =>
        if ((now - t : ℤ) : ℚ) / (1000 * 60) < 5 then .skipClaimed
        else .deleteAndReclaim
    | none => .deleteAndReclaim

/-- Program counter of one worker running the claim step of
`checkMatchesForUser` / `checkForNewMatches` on a fixed match id.  The store
operations are: the pre-claim `findOne` check, the atomic
`findOneAndUpdate` upsert, and the final Terminal write of `processMatch`. -/
inductive WorkerPC where
  | precheck
  | claimOp
  | finish
  | finished
deriving DecidableEq

/-- How one invocation of the claim step ended. -/
inductive WorkerOutcome where
  | skipped
  | processed
deriving DecidableEq

/-- Local state of one worker: its program counter, whether its atomic upsert
found an already-existing document, and its final outcome. -/
structure Worker where
  pc : WorkerPC
  sawExisting : Bool
  outcome : Option WorkerOutcome
deriving DecidableEq

/-- One atomic store operation of a worker, for a match whose fetched detail
has linked participants `ps` (at least `minPlayersRequired` of them, so the
full-analysis branch runs).  The atomic upsert inserts
`processing=true, claimedAt=now` only if no document exists and returns the
post-operation document; the worker skips only when that document already
has participants. -/
def workerStep (ps : List ℕ) (now : ℤ) (store : Option MatchRecord) (w : Worker) :
    Option MatchRecord × Worker :=
  match w.pc with
  | .precheck =>
    match store with
    | some m =>
      match handleExistingMatch m now with
      | .skipProcessed => (store, { w with pc := .finished, outcome := some .skipped })
      | .skipClaimed => (store, { w with pc := .finished, outcome := some .skipped })
      | .deleteAndReclaim => (none, { w with pc := .claimOp })
    | none => (store, { w with pc := .claimOp })
  | .claimOp =>
    match store with
    | none =>
      (some { processing := true, claimedAt := some now, participants := [] },
       { w with pc := .finish, sawExisting := false })
    | some m =>
      if m.participants ≠ [] then
        (some m, { w with pc := .finished, sawExisting := true, outcome := some .skipped })
      else
        (some m, { w with pc := .finish, sawExisting := true })
  | .finish =>
    (some { processing := false, claimedAt := none, participants := ps },
     { w with pc := .finished, outcome := some .processed })
  | .finished => (store, w)

/-- Two workers racing on one match id over the shared match store. -/
structure RaceState where
  store : Option MatchRecord
  wA : Worker
  wB : Worker
deriving DecidableEq

/-- Run one atomic step of worker A (`false`) or worker B (`true`). -/
def raceStep (ps : List ℕ) (now : ℤ) (s : RaceState) (which : Bool) : RaceState :=
  if which then
    let r := workerStep ps now s.store s.wB
    { s with store := r.1, wB := r.2 }
  else
    let r := workerStep ps now s.store s.wA
    { s with store := r.1, wA := r.2 }

/-- Run a schedule (an interleaving of the two workers' atomic steps). -/
def runRace (ps : List ℕ) (now : ℤ) (sched : List Bool) (s : RaceState) : RaceState :=
  sched.foldl (raceStep ps now) s

/-- Both workers at the start, no document for the match id yet. -/
def raceStart : RaceState :=
  { store := none
    wA := { pc := .precheck, sawExisting := false, outcome := none }
    wB := { pc := .precheck, sawExisting := false, outcome := none } }

/-! ### Match history client (src/services/riotApi.js, RiotApiClient.request) -/

/-- One HTTP response as seen by `request`: either a 2xx payload or an error
status, with the optional `retry-after` header value in seconds. -/
inductive RiotResp where
  | ok (data : ℕ)
  | httpErr (status : ℕ) (retryAfter : Option ℕ)
deriving DecidableEq

/-- How `request` resolves: data, `null` for 404, or a raised error. -/
inductive RiotOutcome where
  | success (data : ℕ)
  | nullNotFound
  | authFailure
  | rateLimitExceeded
  | serverError (status : ℕ)
  | otherHttpFailure (status : ℕ)
deriving DecidableEq

/-- `this.maxRetries` of `RiotApiClient`. -/
def maxRetries : ℕ := 3

/-- `RiotApiClient.request(url, region, retryCount)`, with `responses i` the
response to the attempt made at `retryCount = i`.  Returns the outcome
together with the list of sleep delays in seconds: the `retry-after` value
(default 2) before each 429 retry, and `2 ^ retryCount` before each server
error retry.  401/403 raise immediately, 404 resolves to null, and a status
outside the handled cases raises without retrying. -/
def requestFrom (responses : ℕ → RiotResp) (retryCount : ℕ) : RiotOutcome × List ℕ :=
  match responses retryCount with
  | .ok d => (.success d, [])
  | .httpErr status retryAfterHeader =>
    if status = 401 ∨ status = 403 then (.authFailure, [])
    else if status = 404 then (.nullNotFound, [])
    else if status = 429 then
      let retryAfter := retryAfterHeader.getD 2
      if retryCount < maxRetries then
        let r := requestFrom responses (retryCount + 1)
        (r.1, retryAfter :: r.2)
      else (.rateLimitExceeded, [])
    else if status = 500 ∨ status = 502 ∨ status = 503 ∨ status = 504 then
      if retryCount < maxRetries then
        let r := requestFrom responses (retryCount + 1)
        (r.1, 2 ^ retryCount :: r.2)
      else (.serverError status, [])
    else (.otherHttpFailure status, [])
termination_by maxRetries + 1 - retryCount
decreasing_by
  all_goals
    simp only [maxRetries] at *
    omega

/-! ### Concrete instances used by witnesses and counterexamples -/

/-- Participant A of the feeder example: 1/10/1, KDA 0.2. -/
def playerA : Player :=
  { discordId := some 1, teamId := 100, kills := 1, deaths := 10, assists := 1,
    totalDamageDealtToChampions := 10000, totalDamageTaken := 20000, win := false }

/-- Participant B of the feeder example: 0/2/0, KDA 0. -/
def playerB : Player :=
  { discordId := some 2, teamId := 100, kills := 0, deaths := 2, assists := 0,
    totalDamageDealtToChampions := 5000, totalDamageTaken := 10000, win := false }

/-- A linked participant on team 100 used by the MVP-score witness. -/
def playerC : Player :=
  { discordId := some 3, teamId := 100, kills := 5, deaths := 2, assists := 5,
    totalDamageDealtToChampions := 12000, totalDamageTaken := 18000, win := true }

/-- An opposing-team (team 200) participant. -/
def opponentD : Player :=
  { discordId := none, teamId := 200, kills := 3, deaths := 4, assists := 2,
    totalDamageDealtToChampions := 9000, totalDamageTaken := 15000, win := false }

/-- The same opposing-team participant with different damage stats. -/
def opponentD' : Player :=
  { discordId := none, teamId := 200, kills := 3, deaths := 4, assists := 2,
    totalDamageDealtToChampions := 90000, totalDamageTaken := 1, win := false }

/-- A team-stats aggregate used by the MVP-score witness. -/
def teamStatsC : TeamStats := { totalDamage := 20000, totalDamageTaken := 30000 }

/-- A closed, unresolved bet window (opened at time 0) owned by account 1. -/
def windowClosed : BetWindow :=
  { userId := 1, status := .closed, openedAt := 0, closedAt := some 300000,
    matchId := none, totalBets := 1, totalAmount := 100 }

/-- A pending 100-coin win bet by account 2 on `windowClosed`. -/
def betPending : Bet :=
  { userId := 2, targetUserId := 1, matchId := none, betType := .win, amount := 100,
    odds := 2, result := .pending, payout := 0, openedAt := 0 }

/-- Match stats for the settlement witness: the target won. -/
def statsWin : MatchStats := { win := true, kda := 4, deaths := 3, gameDuration := 1500 }

/-- A window already bound to a match. -/
def windowMatched : BetWindow :=
  { userId := 1, status := .matched, openedAt := 0, closedAt := some 300000,
    matchId := some 42, totalBets := 1, totalAmount := 100 }

/-- A bet already settled as won. -/
def betSettled : Bet :=
  { userId := 2, targetUserId := 1, matchId := some 42, betType := .win, amount := 100,
    odds := 2, result := .won, payout := 200, openedAt := 0 }

/-- The betting store holding `windowClosed` and `betPending` after the stake
was debited: both accounts started at 1000 and account 2 staked 100. -/
def staleWindowState : BettingState :=
  { windows := [windowClosed], bets := [betPending],
    balances := fun x => if x = 2 then 900 else 1000 }

/-- A claim-in-progress match record claimed at time 0. -/
def claimedRecord : MatchRecord :=
  { processing := true, claimedAt := some 0, participants := [] }

/-! ## Helper lemmas -/

/-- A left fold that replaces the accumulator exactly when the new element is
strictly smaller returns the first minimum: the list splits around the result
so that everything before it is strictly larger and nothing after it is
strictly smaller. -/
theorem foldl_min_first {α : Type} (lt : α → α → Prop) [DecidableRel lt]
    (htrans : ∀ a b c, lt a b → lt b c → lt a c)
    (hmix : ∀ a b c, lt a b → ¬ lt c b → lt a c) :
    ∀ (xs : List α) (x : α), ∃ l₁ l₂,
      x :: xs = l₁ ++ (xs.foldl (fun a p => if lt p a then p else a) x) :: l₂ ∧
      (∀ q ∈ l₁, lt (xs.foldl (fun a p => if lt p a then p else a) x) q) ∧
      ∀ q ∈ l₂, ¬ lt q (xs.foldl (fun a p => if lt p a then p else a) x) := by
  intro xs
  induction xs with
  | nil =>
    intro x
    exact ⟨[], [], by simp, by simp, by simp⟩
  | cons p xs' ih =>
    intro x
    by_cases hpx : lt p x
    · obtain ⟨l₁, l₂, hdec, h₁, h₂⟩ := ih p
      have hfold : (p :: xs').foldl (fun a q => if lt q a then q else a) x
          = xs'.foldl (fun a q => if lt q a then q else a) p := by
        simp [List.foldl_cons, if_pos hpx]
      rw [hfold]
      have hrx : lt (xs'.foldl (fun a q => if lt q a then q else a) p) x := by
        cases l₁ with
        | nil =>
          simp only [List.nil_append] at hdec
          have : xs'.foldl (fun a q => if lt q a then q else a) p = p :=
            (List.cons.injEq _ _ _ _ ▸ hdec).1.symm
          rw [this]
          exact hpx
        | cons a l₁' =>
          have ha : p = a := by
            simpa using congrArg (fun l => l.head?) hdec
          have hmem : a ∈ a :: l₁' := List.mem_cons_self a l₁'
          have := h₁ a hmem
          rw [← ha] at this
          exact htrans _ _ _ this hpx
      refine ⟨x :: l₁, l₂, ?_, ?_, h₂⟩
      · simpa using hdec
      · intro q hq
        rcases List.mem_cons.mp hq with hq | hq
        · rw [hq]; exact hrx
        · exact h₁ q hq
    · obtain ⟨l₁, l₂, hdec, h₁, h₂⟩ := ih x
      have hfold : (p :: xs').foldl (fun a q => if lt q a then q else a) x
          = xs'.foldl (fun a q => if lt q a then q else a) x := by
        simp [List.foldl_cons, if_neg hpx]
      rw [hfold]
      cases l₁ with
      | nil =>
        simp only [List.nil_append] at hdec
        have hr : xs'.foldl (fun a q => if lt q a then q else a) x = x :=
          (List.cons.injEq _ _ _ _ ▸ hdec).1.symm
        have hl₂ : l₂ = xs' := (List.cons.injEq _ _ _ _ ▸ hdec).2.symm
        refine ⟨[], p :: xs', by simp [hr], by simp, ?_⟩
        intro q hq
        rcases List.mem_cons.mp hq with hq | hq
        · rw [hq, hr]; exact hpx
        · exact h₂ q (hl₂ ▸ hq)
      | cons a l₁' =>
        have ha : x = a := by
          simpa using congrArg (fun l => l.head?) hdec
        have hxs' : xs' = l₁' ++ xs'.foldl (fun a q => if lt q a then q else a) x :: l₂ := by
          have := congrArg List.tail hdec
          simpa using this
        have hrx : lt (xs'.foldl (fun a q => if lt q a then q else a) x) x := by
          have hmem : a ∈ a :: l₁' := List.mem_cons_self a l₁'
          have := h₁ a hmem
          rwa [← ha] at this
        refine ⟨x :: p :: l₁', l₂, ?_, ?_, h₂⟩
        · simpa using hxs'
        · intro q hq
          rcases List.mem_cons.mp hq with hq | hq
          · rw [hq]; exact hrx
          rcases List.mem_cons.mp hq with hq | hq
          · rw [hq]; exact hmix _ _ _ hrx hpx
          · exact h₁ q (by simp [ha, hq])

/-- The feeder priority relation is transitive. -/
theorem feederPriorityLT_trans (a b c : ScoredPlayer) :
    feederPriorityLT a b → feederPriorityLT b c → feederPriorityLT a c := by
  unfold feederPriorityLT
  intro hab hbc
  rcases hab with ⟨ha, hb⟩ | ⟨hab_iff, hab_lt⟩ <;>
    rcases hbc with ⟨hb', hc⟩ | ⟨hbc_iff, hbc_lt⟩
  · omega
  · left
    constructor
    · exact ha
    · by_contra hcge
      exact absurd (hbc_iff.mpr (by omega)) (by omega)
  · left
    exact ⟨hab_iff.mpr hb', hc⟩
  · right
    exact ⟨hab_iff.trans hbc_iff, lt_trans hab_lt hbc_lt⟩

/-- If `a` strictly precedes `b` and `c` does not, then `a` strictly
precedes `c`. -/
theorem feederPriorityLT_mix (a b c : ScoredPlayer) :
    feederPriorityLT a b → ¬ feederPriorityLT c b → feederPriorityLT a c := by
  unfold feederPriorityLT
  intro hab hcb
  push_neg at hcb
  obtain ⟨hcb₁, hcb₂⟩ := hcb
  by_cases ha : 10 ≤ a.player.deaths <;> by_cases hb : 10 ≤ b.player.deaths <;>
    by_cases hc : 10 ≤ c.player.deaths
  · rcases hab with ⟨_, hblt⟩ | ⟨_, hlt⟩
    · omega
    · right
      refine ⟨by tauto, lt_of_lt_of_le hlt ?_⟩
      by_contra hlt'
      exact absurd (hcb₂ (by tauto)) (by push_neg; linarith)
  · left
    exact ⟨ha, by omega⟩
  · rcases hab with ⟨_, hblt⟩ | ⟨hiff, _⟩
    · omega
    · exact absurd (hiff.mp ha) (by omega)
  · rcases hab with ⟨_, hblt⟩ | ⟨hiff, _⟩
    · omega
    · exact absurd (hiff.mp ha) (by omega)
  · rcases hab with ⟨hage, _⟩ | ⟨hiff, _⟩
    · omega
    · exact absurd (hiff.mpr hb) (by omega)
  · rcases hab with ⟨hage, _⟩ | ⟨hiff, _⟩
    · omega
    · exact absurd (hiff.mpr hb) (by omega)
  · exact absurd (hcb₁ hc) (by omega)
  · rcases hab with ⟨hage, _⟩ | ⟨_, hlt⟩
    · omega
    · right
      refine ⟨by tauto, lt_of_lt_of_le hlt ?_⟩
      by_contra hlt'
      exact absurd (hcb₂ (by tauto)) (by push_neg; linarith)

/-- The feeder `reduce` step equals replacement along the priority
relation. -/
theorem feederStep_eq (worst p : ScoredPlayer) :
    feederStep worst p = if feederPriorityLT p worst then p else worst := by
  unfold feederStep feederPriorityLT
  by_cases h1 : 10 ≤ p.player.deaths ∧ worst.player.deaths < 10
  · rw [if_pos h1, if_pos (Or.inl h1)]
  · rw [if_neg h1]
    by_cases h2 : 10 ≤ worst.player.deaths ∧ p.player.deaths < 10
    · rw [if_pos h2, if_neg]
      push_neg at h1
      rintro (⟨hp, hw⟩ | ⟨hiff, _⟩)
      · omega
      · exact absurd (hiff.mpr h2.1) (by omega)
    · rw [if_neg h2]
      push_neg at h1
      push_neg at h2
      have hiff : 10 ≤ p.player.deaths ↔ 10 ≤ worst.player.deaths := by
        constructor <;> intro <;> omega
      by_cases h3 : p.kda < worst.kda
      · rw [if_pos h3, if_pos (Or.inr ⟨hiff, h3⟩)]
      · rw [if_neg h3, if_neg]
        rintro (⟨hp, hw⟩ | ⟨_, hlt⟩)
        · omega
        · exact h3 hlt

/-- Pointwise effect of debiting every stake: each account loses exactly the
sum of its own stakes. -/
theorem debitStakes_apply (bets : List Bet) :
    ∀ (bal : ℕ → ℤ) (x : ℕ), debitStakes bets bal x = bal x - stakesOf x bets := by
  induction bets with
  | nil =>
    intro bal x
    simp [debitStakes, stakesOf]
  | cons b bs ih =>
    intro bal x
    have hfold : debitStakes (b :: bs) bal =
        debitStakes bs (updateBal bal b.userId (bal b.userId - (b.amount : ℤ))) := rfl
    rw [hfold, ih]
    by_cases hx : x = b.userId
    · subst hx
      simp [stakesOf, updateBal, List.filter_cons]
      ring
    · have hb : ¬ b.userId = x := fun h => hx h.symm
      simp [stakesOf, updateBal, List.filter_cons, hx, hb]

/-- Pointwise effect of refunding every stake: each account gains exactly the
sum of its own stakes. -/
theorem refundBets_apply (bets : List Bet) :
    ∀ (bal : ℕ → ℤ) (x : ℕ), refundBets bets bal x = bal x + stakesOf x bets := by
  induction bets with
  | nil =>
    intro bal x
    simp [refundBets, stakesOf]
  | cons b bs ih =>
    intro bal x
    have hfold : refundBets (b :: bs) bal =
        refundBets bs (updateBal bal b.userId (bal b.userId + (b.amount : ℤ))) := rfl
    rw [hfold, ih]
    by_cases hx : x = b.userId
    · subst hx
      simp [stakesOf, updateBal, List.filter_cons]
      ring
    · have hb : ¬ b.userId = x := fun h => hx h.symm
      simp [stakesOf, updateBal, List.filter_cons, hx, hb]

/-- `totalBalance` only depends on the balances of the listed accounts. -/
theorem totalBalance_congr (ids : List ℕ) (f g : ℕ → ℤ)
    (h : ∀ x ∈ ids, f x = g x) : totalBalance ids f = totalBalance ids g := by
  unfold totalBalance
  rw [List.map_congr_left h]

/-- Subtracting `c` from exactly one listed account subtracts `c` from the
total. -/
theorem totalBalance_sub_single (ids : List ℕ) (bal : ℕ → ℤ) (opener : ℕ) (c : ℤ) :
    opener ∈ ids → ids.Nodup →
    totalBalance ids (fun x => bal x - if x = opener then c else 0)
      = totalBalance ids bal - c := by
  induction ids with
  | nil => intro h; simp at h
  | cons a as ih =>
    intro hmem hnd
    rcases List.mem_cons.mp hmem with ha | ha
    · subst ha
      have hnot : opener ∉ as := (List.nodup_cons.mp hnd).1
      have htail : totalBalance as (fun x => bal x - if x = opener then c else 0)
          = totalBalance as bal := by
        refine totalBalance_congr as _ _ ?_
        intro x hx
        have : x ≠ opener := fun hxa => hnot (hxa ▸ hx)
        simp [this]
      simp only [totalBalance, List.map_cons, List.sum_cons] at *
      rw [htail]
      simp
      ring
    · have hna : a ≠ opener := by
        rintro rfl
        exact (List.nodup_cons.mp hnd).1 ha
      have := ih ha (List.nodup_cons.mp hnd).2
      simp only [totalBalance, List.map_cons, List.sum_cons] at *
      rw [this]
      simp [hna]
      ring

/-! ## Claim theorems -/

/-- C1: the claimed exactly-once property fails on the shipped claim step.
With no document for the match id, two workers that each run the pre-claim
`findOne` check before either performs the atomic upsert both proceed to the
full analysis: the second worker's upsert reports an already-existing
document (`sawExisting`), yet because that document has no participants the
worker is not a no-op, and both invocations produce the Terminal write and
its side effects. -/
theorem claim_race_both_process :
    (runRace [1, 2] 0 [false, true, false, true, false, true] raceStart).wA.outcome
        = some .processed ∧
    (runRace [1, 2] 0 [false, true, false, true, false, true] raceStart).wB.outcome
        = some .processed ∧
    (runRace [1, 2] 0 [false, true, false, true, false, true] raceStart).wB.sawExisting
        = true := by
  decide

/-- C4: for a claim-in-progress record (no participants, `claimedAt`
present), the pre-claim check deletes the record and allows re-claiming
exactly when the claim is at least 5 minutes old, and skips it (leaving it
owned by the other worker) exactly when it is younger. -/
theorem stale_claim_cleanup (m : MatchRecord) (now t : ℤ)
    (hparts : m.participants = []) (hclaim : m.claimedAt = some t) :
    (handleExistingMatch m now = .deleteAndReclaim ↔ 5 * 60000 ≤ now - t) ∧
    (handleExistingMatch m now = .skipClaimed ↔ now - t < 5 * 60000) := by
  unfold handleExistingMatch
  rw [hclaim]
  simp only [hparts, ne_eq, not_true_eq_false, if_false]
  have hcond : ((now - t : ℤ) : ℚ) / (1000 * 60) < 5 ↔ now - t < 5 * 60000 := by
    rw [div_lt_iff₀ (by norm_num : (0 : ℚ) < 1000 * 60)]
    constructor
    · intro h
      exact_mod_cast h
    · intro h
      exact_mod_cast h
  by_cases hage : now - t < 5 * 60000
  · rw [if_pos (hcond.mpr hage)]
    refine ⟨⟨fun h => by simp at h, fun h => absurd hage (by omega)⟩, ⟨fun _ => hage, fun _ => rfl⟩⟩
  · rw [if_neg (fun h => hage (hcond.mp h))]
    refine ⟨⟨fun _ => by omega, fun _ => rfl⟩, ⟨fun h => by simp at h, fun h => absurd h hage⟩⟩

/-- Witness for C4: a claim stuck for exactly 5 minutes is deleted and
re-claimed, while one 1 millisecond younger is skipped. -/
theorem stale_claim_cleanup_witness :
    handleExistingMatch claimedRecord 300000 = .deleteAndReclaim ∧
    handleExistingMatch claimedRecord 299999 = .skipClaimed := by
  constructor
  · exact (stale_claim_cleanup claimedRecord 300000 0 rfl rfl).1.mpr (by norm_num)
  · exact (stale_claim_cleanup claimedRecord 299999 0 rfl rfl).2.mpr (by norm_num)

/-- C9: the delayed cancellation check is a no-op on any window that is no
longer `closed`: a window already bound to a match keeps its `matched`
status, and neither its bets nor any balance is touched, so settled bets are
never refunded. -/
theorem cancel_only_when_still_closed (w : BetWindow) (bets : List Bet) (bal : ℕ → ℤ)
    (h : w.status = .matched) :
    checkAndCancelWindow w bets bal = (w, bets, bal) := by
  unfold checkAndCancelWindow
  rw [h]
  simp

/-- Witness for C9: the timeout check leaves a matched window with a settled
bet entirely unchanged. -/
theorem cancel_only_when_still_closed_witness :
    checkAndCancelWindow windowMatched [betSettled] (fun _ => 1000)
      = (windowMatched, [betSettled], fun _ => 1000) :=
  cancel_only_when_still_closed windowMatched [betSettled] (fun _ => 1000) rfl

/-- C10: every account created by the link operation starts with exactly
1000 coins, both via the link command's explicit
`currency: initialCoins` and via the User schema default. -/
theorem link_initial_coins :
    (∀ d r : ℕ, (linkNewUser d r).currency = 1000) ∧
    userSchemaCurrencyDefault = 1000 :=
  ⟨fun _ _ => rfl, rfl⟩

/-- C2 (amended): when the delayed `checkAndCancelWindow` job cancels a
closed window, every pending bet of the window is marked `cancelled` and its
full staked amount is credited back, and the opener is penalized exactly
`cancellationPenalty`; relative to the balances before the stakes were
debited at placement, every account ends unchanged except the opener, who is
down exactly the penalty, so the total over any set of accounts containing
the opener drops by exactly the penalty. -/
theorem cancel_window_refund_and_penalty (w : BetWindow) (bets : List Bet)
    (bal0 : ℕ → ℤ) (ids : List ℕ)
    (hclosed : w.status = .closed)
    (hbets : ∀ b ∈ bets, betOnWindow w b ∧ b.result = .pending)
    (hmem : w.userId ∈ ids) (hnd : ids.Nodup) :
    (checkAndCancelWindow w bets (debitStakes bets bal0)).1.status = .cancelled ∧
    (∀ b ∈ (checkAndCancelWindow w bets (debitStakes bets bal0)).2.1,
      b.result = .cancelled) ∧
    (∀ x, (checkAndCancelWindow w bets (debitStakes bets bal0)).2.2 x
      = bal0 x - if x = w.userId then cancellationPenalty else 0) ∧
    totalBalance ids (checkAndCancelWindow w bets (debitStakes bets bal0)).2.2
      = totalBalance ids bal0 - cancellationPenalty := by
  have hfilter : (bets.filter fun b => decide (betOnWindow w b ∧ b.result = .pending))
      = bets :=
    List.filter_eq_self.mpr fun b hb => decide_eq_true (hbets b hb)
  have heval : checkAndCancelWindow w bets (debitStakes bets bal0) =
      ({ w with status := .cancelled },
       bets.map fun b =>
         if betOnWindow w b ∧ b.result = .pending then { b with result := .cancelled } else b,
       updateBal (refundBets bets (debitStakes bets bal0)) w.userId
         (refundBets bets (debitStakes bets bal0) w.userId - cancellationPenalty)) := by
    unfold checkAndCancelWindow
    rw [if_pos hclosed, hfilter]
  have hbal : ∀ x, updateBal (refundBets bets (debitStakes bets bal0)) w.userId
      (refundBets bets (debitStakes bets bal0) w.userId - cancellationPenalty) x
      = bal0 x - if x = w.userId then cancellationPenalty else 0 := by
    intro x
    unfold updateBal
    rw [refundBets_apply, debitStakes_apply, refundBets_apply, debitStakes_apply]
    by_cases hx : x = w.userId
    · rw [if_pos hx, if_pos hx, hx]
      ring
    · rw [if_neg hx, if_neg hx]
      ring
  rw [heval]
  refine ⟨rfl, ?_, hbal, ?_⟩
  · intro b hb
    obtain ⟨b0, hb0, rfl⟩ := List.mem_map.mp hb
    rw [if_pos (hbets b0 hb0)]
  · rw [totalBalance_congr ids _ _ fun x _ => hbal x]
    exact totalBalance_sub_single ids bal0 w.userId cancellationPenalty hmem hnd

/-- Witness for C2: account 2 stakes 100 on account 1's closed window; after
the timeout cancellation the window is cancelled, the bet is cancelled, and
the total of the two balances is exactly the 50-coin penalty below its
pre-placement value. -/
theorem cancel_window_refund_and_penalty_witness :
    (checkAndCancelWindow windowClosed [betPending]
        (debitStakes [betPending] fun _ => 1000)).1.status = .cancelled ∧
    totalBalance [1, 2] (checkAndCancelWindow windowClosed [betPending]
        (debitStakes [betPending] fun _ => 1000)).2.2
      = totalBalance [1, 2] (fun _ => (1000 : ℤ)) - cancellationPenalty := by
  have h := cancel_window_refund_and_penalty windowClosed [betPending]
    (fun _ => 1000) [1, 2] rfl (by decide) (by decide) (by decide)
  exact ⟨h.1, h.2.2.2⟩

/-- Counterexample for C2: the periodic `cleanupExpiredWindows` sweep also
cancels a closed window for timeout, but it only flips the window status —
the pending bet stays pending with no refund, no penalty is applied, and the
total balance is unchanged instead of dropping by the penalty. -/
theorem cleanup_expired_no_refund :
    (cleanupExpiredWindows 7000000 staleWindowState).windows
      = [{ windowClosed with status := .cancelled }] ∧
    (cleanupExpiredWindows 7000000 staleWindowState).bets = [betPending] ∧
    betPending.result = .pending ∧
    (cleanupExpiredWindows 7000000 staleWindowState).balances
      = staleWindowState.balances ∧
    totalBalance [1, 2] (cleanupExpiredWindows 7000000 staleWindowState).balances
      = totalBalance [1, 2] staleWindowState.balances := by
  refine ⟨?_, rfl, rfl, rfl, rfl⟩
  decide

/-- C3: a closed, unresolved window is bound to a newly processed match
(match id set, status `matched`, every pending bet of the window settled to
won or lost) exactly when `elapsedMinutes = (gameStart - openedAt) / 60000`
satisfies `0 ≤ elapsedMinutes ≤ 40`; outside that range — in particular for a
negative elapsed time — the window and the bets are left untouched.  A match
starting exactly 40 minutes after the window opened settles against it; one
starting 40 minutes and 1 second after does not. -/
theorem settle_window_timing (w : BetWindow) (matchId : ℕ) (g : ℤ)
    (stats : MatchStats) (bets : List Bet) (bal : ℕ → ℤ)
    (hclosed : w.status = .closed) (hunres : w.matchId = none) :
    (0 ≤ ((g - w.openedAt : ℤ) : ℚ) / 60000 ∧ ((g - w.openedAt : ℤ) : ℚ) / 60000 ≤ 40 →
      (settleWindowForMatch w matchId g stats bets bal).1
        = { w with matchId := some matchId, status := .matched } ∧
      (settleWindowForMatch w matchId g stats bets bal).2.1
        = bets.map
            (settleOne { w with matchId := some matchId, status := .matched } stats matchId) ∧
      ∀ b ∈ bets, betOnWindow w b → b.result = .pending →
        (settleOne { w with matchId := some matchId, status := .matched } stats matchId b).result
          = (if evaluateBet b.betType stats then .won else .lost)) ∧
    (¬ (0 ≤ ((g - w.openedAt : ℤ) : ℚ) / 60000 ∧ ((g - w.openedAt : ℤ) : ℚ) / 60000 ≤ 40) →
      settleWindowForMatch w matchId g stats bets bal = (w, bets, bal) ∧
      (settleWindowForMatch w matchId g stats bets bal).1.status = .closed ∧
      (settleWindowForMatch w matchId g stats bets bal).1.matchId = none) ∧
    (g = w.openedAt + 40 * 60000 →
      (settleWindowForMatch w matchId g stats bets bal).1.status = .matched) ∧
    (g = w.openedAt + 40 * 60000 + 1000 →
      settleWindowForMatch w matchId g stats bets bal = (w, bets, bal)) := by
  have hsame : ((1000 : ℚ) * 60) = 60000 := by norm_num
  refine ⟨?_, ?_, ?_, ?_⟩
  · intro h
    have hpos : 0 ≤ ((g - w.openedAt : ℤ) : ℚ) / (1000 * 60) ∧
        ((g - w.openedAt : ℤ) : ℚ) / (1000 * 60) ≤ maxGameStartWindow := by
      rw [hsame]
      exact ⟨h.1, h.2⟩
    unfold settleWindowForMatch
    rw [if_pos hpos]
    refine ⟨rfl, rfl, ?_⟩
    intro b _ hbow hpend
    unfold settleOne
    rw [if_pos ⟨hbow, hpend⟩]
    by_cases he : evaluateBet b.betType stats
    · rw [if_pos he]
      simp [he]
    · rw [if_neg he]
      simp [he]
  · intro h
    have hneg : ¬ (0 ≤ ((g - w.openedAt : ℤ) : ℚ) / (1000 * 60) ∧
        ((g - w.openedAt : ℤ) : ℚ) / (1000 * 60) ≤ maxGameStartWindow) := by
      rw [hsame]
      exact h
    unfold settleWindowForMatch
    rw [if_neg hneg]
    exact ⟨rfl, hclosed, hunres⟩
  · intro hg
    subst hg
    have hpos : 0 ≤ ((w.openedAt + 40 * 60000 - w.openedAt : ℤ) : ℚ) / (1000 * 60) ∧
        ((w.openedAt + 40 * 60000 - w.openedAt : ℤ) : ℚ) / (1000 * 60) ≤ maxGameStartWindow := by
      have : (w.openedAt + 40 * 60000 - w.openedAt : ℤ) = 2400000 := by ring
      rw [this]
      norm_num [maxGameStartWindow]
    unfold settleWindowForMatch
    rw [if_pos hpos]
  · intro hg
    subst hg
    have hneg : ¬ (0 ≤ ((w.openedAt + 40 * 60000 + 1000 - w.openedAt : ℤ) : ℚ) / (1000 * 60) ∧
        ((w.openedAt + 40 * 60000 + 1000 - w.openedAt : ℤ) : ℚ) / (1000 * 60)
          ≤ maxGameStartWindow) := by
      have : (w.openedAt + 40 * 60000 + 1000 - w.openedAt : ℤ) = 2401000 := by ring
      rw [this]
      norm_num [maxGameStartWindow]
    unfold settleWindowForMatch
    rw [if_neg hneg]

/-- Witness for C3: a match starting exactly 40 minutes after `windowClosed`
opened binds and settles the window (the pending win bet wins), while one
starting one second later leaves the window closed and unresolved. -/
theorem settle_window_timing_witness :
    (settleWindowForMatch windowClosed 7 2400000 statsWin [betPending] (fun _ => 900)).1.status
      = .matched ∧
    settleWindowForMatch windowClosed 7 2401000 statsWin [betPending] (fun _ => 900)
      = (windowClosed, [betPending], fun _ => 900) := by
  have h := settle_window_timing windowClosed 7 2400000 statsWin [betPending]
    (fun _ => 900) rfl rfl
  have h' := settle_window_timing windowClosed 7 2401000 statsWin [betPending]
    (fun _ => 900) rfl rfl
  exact ⟨h.2.2.1 (by norm_num [windowClosed]), h'.2.2.2 (by norm_num [windowClosed])⟩

/-- C5: `calculateMVPScore` equals the spec formula — KDA times the weighted
damage and tank shares over the player's own team totals, times 1.2 exactly
on a win, scaled by 10, capped at 100 and rounded to one decimal — and the
score computed inside the pipeline for a participant is unchanged when any
opposing-team participant of the match is replaced by one with arbitrary
other stats. -/
theorem mvp_score_team_relative :
    (∀ (p : Player) (ts : TeamStats), 0 < ts.totalDamage → 0 < ts.totalDamageTaken →
      calculateMVPScore p ts = specMVPScore p ts) ∧
    (∀ (l₁ l₂ : List Player) (q q' p : Player),
      q.teamId ≠ p.teamId → q'.teamId ≠ p.teamId →
      mvpScoreWithin (l₁ ++ q :: l₂) p = mvpScoreWithin (l₁ ++ q' :: l₂) p) := by
  constructor
  · intro p ts h1 h2
    unfold calculateMVPScore specMVPScore
    rw [if_pos h1, if_pos h2]
    by_cases hw : p.win <;> simp [hw]
  · intro l₁ l₂ q q' p hq hq'
    unfold mvpScoreWithin
    have hts : teamStatsFor (l₁ ++ q :: l₂) p.teamId = teamStatsFor (l₁ ++ q' :: l₂) p.teamId := by
      unfold teamStatsFor
      simp [List.filter_append, List.filter_cons, hq, hq']
    rw [hts]

/-- Witness for C5: the formula agreement at a concrete player and team
aggregate, and invariance of a team-100 player's pipeline score when the
opposing team-200 player's damage stats change radically. -/
theorem mvp_score_team_relative_witness :
    calculateMVPScore playerC teamStatsC = specMVPScore playerC teamStatsC ∧
    mvpScoreWithin [opponentD, playerC] playerC
      = mvpScoreWithin [opponentD', playerC] playerC := by
  constructor
  · exact mvp_score_team_relative.1 playerC teamStatsC (by norm_num [teamStatsC])
      (by norm_num [teamStatsC])
  · exact mvp_score_team_relative.2 [] [playerC] opponentD opponentD' playerC
      (by decide) (by decide)

/-- C7: every odds value returned by `calculateBettingOdds` is the spec's
unscaled piecewise-linear value — win odds `1.5 + (100-winRate)/50` above a
50 win rate and `2.0 + (50-winRate)/25` otherwise, the inverse scale for
loss, linear adjustments around the fixed thresholds 3.0 KDA and 7 deaths,
and the constant 1.8 for duration — multiplied by exactly 0.95 and rounded
to one decimal. -/
theorem betting_odds_house_edge (stats : PlayerOddsStats) :
    calculateBettingOdds stats =
      { win := round1 (specWinOddsRaw stats.winRate * 0.95)
        loss := round1 (specLossOddsRaw stats.winRate * 0.95)
        kda3 := round1 (specKdaOddsRaw stats.avgKDA * 0.95)
        deaths7 := round1 (specDeathsOddsRaw stats.avgDeaths * 0.95)
        time30 := round1 (specTimeOddsRaw * 0.95) } := by
  unfold calculateBettingOdds specWinOddsRaw specLossOddsRaw specKdaOddsRaw
    specDeathsOddsRaw specTimeOddsRaw
  norm_num

/-- C6: feeder selection returns the first-encountered participant that is
minimal in the priority order in which any participant with at least 10
deaths precedes every participant with fewer regardless of KDA, and
participants on the same side of the 10-death threshold are ordered by lower
KDA: the list splits around the selected feeder so that the feeder strictly
precedes everything before it (ties keep the earlier participant) and
nothing after it strictly precedes the feeder.  Concretely, A with 1/10/1
(KDA 0.2) is selected over B with 0/2/0 (KDA 0.0). -/
theorem feeder_selection_rule :
    (∀ (x : ScoredPlayer) (xs : List ScoredPlayer), ∃ r l₁ l₂,
      findFeeder (x :: xs) = some r ∧
      x :: xs = l₁ ++ r :: l₂ ∧
      (∀ q ∈ l₁, feederPriorityLT r q) ∧
      ∀ q ∈ l₂, ¬ feederPriorityLT q r) ∧
    (findMVPAndFeeder [playerA, playerB]).feeder = some 1 := by
  constructor
  · intro x xs
    have hstep : feederStep = fun a q => if feederPriorityLT q a then q else a := by
      funext a q
      exact feederStep_eq a q
    obtain ⟨l₁, l₂, hdec, h₁, h₂⟩ :=
      foldl_min_first feederPriorityLT feederPriorityLT_trans feederPriorityLT_mix xs x
    refine ⟨xs.foldl (fun a p => if feederPriorityLT p a then p else a) x,
      l₁, l₂, ?_, hdec, h₁, h₂⟩
    rw [findFeeder, hstep]
  · decide

/-- Witness for C6: the concrete feeder pick — A (1/10/1) over B (0/2/0). -/
theorem feeder_selection_rule_witness :
    (findMVPAndFeeder [playerA, playerB]).feeder = some 1 :=
  feeder_selection_rule.2

/-- Witness for C7: the odds decomposition at a concrete 60 percent win
rate, average KDA 2 and average deaths 8. -/
theorem betting_odds_house_edge_witness :
    calculateBettingOdds { winRate := 60, avgKDA := 2, avgDeaths := 8 } =
      { win := round1 (specWinOddsRaw 60 * 0.95)
        loss := round1 (specLossOddsRaw 60 * 0.95)
        kda3 := round1 (specKdaOddsRaw 2 * 0.95)
        deaths7 := round1 (specDeathsOddsRaw 8 * 0.95)
        time30 := round1 (specTimeOddsRaw * 0.95) } :=
  betting_odds_house_edge { winRate := 60, avgKDA := 2, avgDeaths := 8 }

/-- Witness for C10: a concrete linked account starts with 1000 coins. -/
theorem link_initial_coins_witness : (linkNewUser 5 9).currency = 1000 :=
  link_initial_coins.1 5 9

/-- Counterexample for C8: a 501 response — a 5xx status — is not retried at
all: the request raises immediately with an empty delay list instead of the
claimed bounded exponential backoff. -/
theorem riot_request_501_no_retry :
    requestFrom (fun _ => .httpErr 501 none) 0 = (.otherHttpFailure 501, []) := by
  unfold requestFrom
  norm_num

/-- C8 (amended): a 404 resolves to null with no retry; 401 and 403 raise
immediately with no retry; a 429 is retried after the server-specified
retry-after delay at most `maxRetries = 3` times before raising; a 500, 502,
503 or 504 is retried with exponential backoff (delays `2^k` seconds, i.e.
1, 2, 4) at most 3 times before raising, and a retried request that then
succeeds returns its data. -/
theorem riot_request_error_handling :
    (∀ (f : ℕ → RiotResp) (ra : Option ℕ), f 0 = .httpErr 404 ra →
      requestFrom f 0 = (.nullNotFound, [])) ∧
    (∀ (f : ℕ → RiotResp) (s : ℕ) (ra : Option ℕ), s = 401 ∨ s = 403 →
      f 0 = .httpErr s ra → requestFrom f 0 = (.authFailure, [])) ∧
    (∀ (f : ℕ → RiotResp) (r : ℕ → ℕ),
      (∀ i, i ≤ maxRetries → f i = .httpErr 429 (some (r i))) →
      requestFrom f 0 = (.rateLimitExceeded, [r 0, r 1, r 2])) ∧
    (∀ (f : ℕ → RiotResp) (s : ℕ), s = 500 ∨ s = 502 ∨ s = 503 ∨ s = 504 →
      (∀ i, i ≤ maxRetries → f i = .httpErr s none) →
      requestFrom f 0 = (.serverError s, [1, 2, 4])) ∧
    (∀ (f : ℕ → RiotResp) (d r : ℕ), f 0 = .httpErr 429 (some r) → f 1 = .ok d →
      requestFrom f 0 = (.success d, [r])) := by
  refine ⟨?_, ?_, ?_, ?_, ?_⟩
  · intro f ra h
    unfold requestFrom
    rw [h]
    norm_num
  · intro f s ra hs h
    rcases hs with rfl | rfl <;>
      · unfold requestFrom
        rw [h]
        norm_num
  · intro f r h
    have h0 := h 0 (by norm_num [maxRetries])
    have h1 := h 1 (by norm_num [maxRetries])
    have h2 := h 2 (by norm_num [maxRetries])
    have h3 := h 3 (by norm_num [maxRetries])
    have e3 : requestFrom f 3 = (.rateLimitExceeded, []) := by
      unfold requestFrom
      rw [h3]
      norm_num [maxRetries]
    have e2 : requestFrom f 2 = (.rateLimitExceeded, [r 2]) := by
      unfold requestFrom
      rw [h2]
      norm_num [maxRetries, e3]
    have e1 : requestFrom f 1 = (.rateLimitExceeded, [r 1, r 2]) := by
      unfold requestFrom
      rw [h1]
      norm_num [maxRetries, e2]
    unfold requestFrom
    rw [h0]
    norm_num [maxRetries, e1]
  · intro f s hs h
    have h0 := h 0 (by norm_num [maxRetries])
    have h1 := h 1 (by norm_num [maxRetries])
    have h2 := h 2 (by norm_num [maxRetries])
    have h3 := h 3 (by norm_num [maxRetries])
    have hn1 : ¬ (s = 401 ∨ s = 403) := by rcases hs with rfl | rfl | rfl | rfl <;> norm_num
    have hn4 : ¬ s = 404 := by rcases hs with rfl | rfl | rfl | rfl <;> norm_num
    have hn9 : ¬ s = 429 := by rcases hs with rfl | rfl | rfl | rfl <;> norm_num
    have e3 : requestFrom f 3 = (.serverError s, []) := by
      unfold requestFrom
      rw [h3]
      norm_num [hn1, hn4, hn9, hs, maxRetries]
    have e2 : requestFrom f 2 = (.serverError s, [4]) := by
      unfold requestFrom
      rw [h2]
      norm_num [hn1, hn4, hn9, hs, maxRetries, e3]
    have e1 : requestFrom f 1 = (.serverError s, [2, 4]) := by
      unfold requestFrom
      rw [h1]
      norm_num [hn1, hn4, hn9, hs, maxRetries, e2]
    unfold requestFrom
    rw [h0]
    norm_num [hn1, hn4, hn9, hs, maxRetries, e1]
  · intro f d r h0 h1
    have e1 : requestFrom f 1 = (.success d, []) := by
      unfold requestFrom
      rw [h1]
    unfold requestFrom
    rw [h0]
    norm_num [maxRetries, e1]

/-- Witness for C8: concrete response streams exercising the 404, 403,
persistent-429 and persistent-503 behaviors. -/
theorem riot_request_error_handling_witness :
    requestFrom (fun _ => .httpErr 404 none) 0 = (.nullNotFound, []) ∧
    requestFrom (fun _ => .httpErr 403 none) 0 = (.authFailure, []) ∧
    requestFrom (fun _ => .httpErr 429 (some 7)) 0 = (.rateLimitExceeded, [7, 7, 7]) ∧
    requestFrom (fun _ => .httpErr 503 none) 0 = (.serverError 503, [1, 2, 4]) := by
  refine ⟨?_, ?_, ?_, ?_⟩
  · exact riot_request_error_handling.1 _ none rfl
  · exact riot_request_error_handling.2.1 _ 403 none (Or.inr rfl) rfl
  · exact riot_request_error_handling.2.2.1 _ (fun _ => 7) (fun _ _ => rfl)
  · exact riot_request_error_handling.2.2.2.1 _ 503 (by norm_num) (fun _ _ => rfl)

end DiscordBot
